import Mathlib

set_option maxRecDepth 1000000

/-!
Verification of the `JetNet` dataset class (`jetnet.py`).

The dataset is a 3-D tensor `[num_jets, num_particles, num_features]`; we embed
tensors as nested lists of rationals (`Arr3`), with `entry` giving element access
(out-of-range access returns the all-zero default, which is only exercised under
in-bounds hypotheses in the theorems below).  Tensors produced by the code are
rectangular; the embedding follows each list's own length where the source uses
the shared shape.  Python floats are modelled by `ℚ`; a separate IEEE-style value
type `EV` (with `nan`/`±inf`) is used for the division-by-zero analysis of
`normalize_features`.  Python exceptions are modelled with `Except PyError`.
-/

/-- A 3-D tensor `[jets, particles, features]` as nested lists. -/
abbrev Arr3 : Type := List (List (List ℚ))

/-- Element access `d[n, p, i]`, defaulting to `0` out of range. -/
def entry (d : Arr3) (n p i : ℕ) : ℚ := ((d.getD n []).getD p []).getD i 0

/-- `d.shape[1]`: the particle-axis length (taken from the first jet; tensors are
rectangular). -/
def shape1 (d : Arr3) : ℕ := (d.headD []).length

/-- `d.shape[2]`: the feature-axis length (taken from the first particle; tensors
are rectangular). -/
def numFeatures (d : Arr3) : ℕ := ((d.headD []).headD []).length

/-- Rebuild a particle (feature vector) by applying `f i` to the value at each
feature index `i`; embeds the source's `for i in range(num_features)` loops of
in-place column updates (each column update only reads column `i`, so the
per-feature loop is a simultaneous per-element map). -/
def transformParticle (f : ℕ → ℚ → ℚ) (part : List ℚ) : List ℚ :=
  (List.range part.length).map (fun i => f i (part.getD i 0))

/-- `jetnet.py` lines 164-170: scale feature `i` to `feature_norms[i]` (dividing by
the observed max) when the norm is not `None`, then add `feature_shifts[i]` when
the shift is not `None` and nonzero. -/
def normElem (norm shift : Option ℚ) (M : ℚ) (v : ℚ) : ℚ :=
  let v1 := match norm with
    | some m => v / M * m
    | none => v
  match shift with
  | some s => if s ≠ 0 then v1 + s else v1
  | none => v1

/-- `jetnet.py` lines 200-206: the inverse loop of `unnormalize_features`:
subtract the shift (when not `None` and nonzero), then divide by the norm target
and multiply by the fitted max (when the norm is not `None`). -/
def unnormElem (norm shift : Option ℚ) (M : ℚ) (v : ℚ) : ℚ :=
  let v1 := match shift with
    | some s => if s ≠ 0 then v - s else v
    | none => v
  match norm with
  | some m => v1 / m * M
  | none => v1

/-- `float(torch.max(torch.abs(dataset[:, :, i])))` (line 161): maximum absolute
value of feature column `i` over the whole array.  All folded values are
absolute values, hence nonnegative, so folding `max` from `0` agrees with
`torch.max` on the nonempty tensors the code runs on. -/
def featureMaxL (d : Arr3) (i : ℕ) : ℚ :=
  ((d.flatten).map (fun part => |part.getD i 0|)).foldr max 0

/-- The flattened feature-2 column `dataset[:, :, 2]` (used for the pT cutoff). -/
def col2 (d : Arr3) : List ℚ := (d.flatten).map (fun part => part.getD 2 0)

/-- `torch.unique(l, sorted=True)[1]`: the second-smallest distinct value, i.e.
the least element strictly above the minimum; `none` when there are fewer than
two distinct values (in Python that indexing raises `IndexError`). -/
def secondSmallest (l : List ℚ) : Option ℚ :=
  match l.min? with
  | none => none
  | some m => (l.filter (fun x => m < x)).min?

/-- `JetNet.normalize_features` (lines 154-175): computes the per-feature max-abs
values, scales/shifts each feature column in place, and computes the pT cutoff
`torch.unique(dataset[:, :, 2], sorted=True)[1]` (`none` models the `IndexError`
when feature 2 has fewer than two distinct values).  Returns
`(dataset, feature_maxes, pt_cutoff)`. -/
def normalize_features (norms shifts : List (Option ℚ)) (d : Arr3) : Arr3 × List ℚ × Option ℚ :=
  let feature_maxes := (List.range (numFeatures d)).map (fun i => featureMaxL d i)
  let d2 : Arr3 := d.map fun jet => jet.map fun part =>
    transformParticle
      (fun i v => normElem (norms.getD i none) (shifts.getD i none) (feature_maxes.getD i 0) v)
      part
  (d2, feature_maxes, secondSmallest (col2 d2))

/-- Lines 200-206 of `unnormalize_features`: the per-feature inverse loop applied
to every element. -/
def unnormalize_loop (norms shifts : List (Option ℚ)) (maxes : List ℚ) (d : Arr3) : Arr3 :=
  d.map fun jet => jet.map fun part =>
    transformParticle
      (fun i v => unnormElem (norms.getD i none) (shifts.getD i none) (maxes.getD i 0) v)
      part

/-- Line 211 `dataset[~mask] = 0`: zero all features of particles whose mask
(last feature, line 208: `dataset[:, :, -1] >= 0.5`) marks them as padding. -/
def zeroMaskedParticles (d : Arr3) : Arr3 :=
  d.map fun jet => jet.map fun part =>
    if part.getD (part.length - 1) 0 ≥ 1/2 then part else List.replicate part.length 0

/-- Line 214 `dataset[:, :, 2][dataset[:, :, 2] < 0] = 0`: clamp negative values
of feature 2 (pT) to zero. -/
def zeroNegPt (d : Arr3) : Arr3 :=
  d.map fun jet => jet.map fun part =>
    transformParticle (fun i v => if i = 2 ∧ v < 0 then 0 else v) part

/-- The in-place effect of `JetNet.unnormalize_features` (lines 200-214) on the
`dataset` array: the inverse loop, then (for non-real data) the optional
mask-zeroing and negative-pT clamping. -/
def unnormalize_array (norms shifts : List (Option ℚ)) (maxes : List ℚ)
    (use_mask is_real_data zmp znp : Bool) (d : Arr3) : Arr3 :=
  let d1 := unnormalize_loop norms shifts maxes d
  let d2 := if !is_real_data && zmp && use_mask then zeroMaskedParticles d1 else d1
  if !is_real_data && znp then zeroNegPt d2 else d2

/-- A Python value as returned by `unnormalize_features`: a 2-D float tensor, a
2-D boolean tensor, a 3-D tensor, or `None`. -/
inductive PyVal where
  | tensor2 (t : List (List ℚ))
  | boolTensor (b : List (List Bool))
  | tensor3 (d : Arr3)
  | pynone
deriving DecidableEq

/-- The shape of the Python return value of `unnormalize_features`: either a
2-tuple or a single value. -/
inductive UnnormRet where
  | tuple (fst snd : PyVal)
  | single (v : PyVal)
deriving DecidableEq

/-- Discriminator: is this return value a 2-tuple? -/
def UnnormRet.isTuple : UnnormRet → Bool
  | .tuple _ _ => true
  | .single _ => false

/-- `dataset[:, :, -1]`: the last feature column, as a 2-D array. -/
def lastCol (d : Arr3) : List (List ℚ) :=
  d.map fun jet => jet.map fun part => part.getD (part.length - 1) 0

/-- Line 208 `dataset[:, :, -1] >= 0.5`: the boolean mask tensor. -/
def maskOf (d : Arr3) : List (List Bool) :=
  d.map fun jet => jet.map fun part => decide (part.getD (part.length - 1) 0 ≥ 1/2)

/-- `JetNet.unnormalize_features` (lines 177-216) including its return value.
The final statement `return dataset[:, :, -1], mask if ret_mask_separate else
dataset` parses (Python operator precedence) as the 2-tuple
`(dataset[:, :, -1], (mask if ret_mask_separate else dataset))`, where `mask` is
the boolean tensor of line 208 (computed before the zeroing steps, from the
unnormalized values) or `None` when `use_mask` is false. -/
def unnormalize_features (norms shifts : List (Option ℚ)) (maxes : List ℚ)
    (use_mask : Bool) (d : Arr3) (ret_mask_separate is_real_data zmp znp : Bool) : UnnormRet :=
  let d1 := unnormalize_loop norms shifts maxes d
  let mask : PyVal := if use_mask then .boolTensor (maskOf d1) else .pynone
  let d3 := unnormalize_array norms shifts maxes use_mask is_real_data zmp znp d
  .tuple (.tensor2 (lastCol d3)) (if ret_mask_separate then mask else .tensor3 d3)

/-- Hard clamp to `[-1, 1]` (lines 224-225). -/
def clamp1 (x : ℚ) : ℚ := if x > 1 then 1 else if x < -1 then -1 else x

/-- `JetNet.add_noise_padding` (lines 219-234).  `raw` is the
`torch.randn((len(dataset), num_particles, F - 1))` sample (indexed like the
dataset; the noise tensor's particle count equals the dataset's particle axis in
every reachable call, else the addition would be a runtime shape error).  The
noise is `raw / 5` clamped to `[-1, 1]`, halved on feature 2, zeroed on slots
whose mask (feature 3, line 228: `(dataset[:, :, 3] + 0.5).bool()`, true iff the
value is not `-0.5`) marks a real particle, concatenated with a zero column for
the mask feature, and added to the dataset. -/
def add_noise_padding (raw d : Arr3) : Arr3 :=
  (List.range d.length).map fun n =>
    (List.range (d.getD n []).length).map fun p =>
      let part := (d.getD n []).getD p []
      (List.range part.length).map fun j =>
        part.getD j 0 +
          (if j + 1 = part.length then 0
           else if entry d n p 3 + 1/2 ≠ 0 then 0
           else if j = 2 then clamp1 (entry raw n p j / 5) / 2
           else clamp1 (entry raw n p j / 5))

/-- `JetNet.load_dataset` (lines 129-144), with the tensor loaded from `pt_file`
passed in as `raw`: truncate the particle axis to `num_particles -
num_pad_particles` when that difference is strictly between 0 and `shape[1]`,
pad with `num_pad_particles` all-zero particles, and drop the trailing mask
feature when `use_mask` is false. -/
def load_dataset (raw : Arr3) (num_particles num_pad_particles : ℕ) (use_mask : Bool) : Arr3 :=
  let d1 : Arr3 :=
    if 0 < (num_particles : ℤ) - num_pad_particles ∧
        (num_particles : ℤ) - num_pad_particles < shape1 raw then
      raw.map (fun jet => jet.take (num_particles - num_pad_particles))
    else raw
  let d2 : Arr3 :=
    if 0 < num_pad_particles then
      d1.map (fun jet => jet ++ List.replicate num_pad_particles (List.replicate (numFeatures d1) 0))
    else d1
  if use_mask then d2 else d2.map (fun jet => jet.map (fun part => part.dropLast))

/-- `JetNet.get_jet_features` (lines 147-151):
`(torch.sum(dataset[:, :, 3], dim=1) / self.num_particles).unsqueeze(1)` — the
per-jet sum of feature column 3 (the mask), divided by the `num_particles`
constructor argument, as an `[N, 1]` array. -/
def get_jet_features (num_particles : ℕ) (d : Arr3) : List (List ℚ) :=
  d.map fun jet => [(jet.map (fun part => part.getD 3 0)).sum / (num_particles : ℚ)]

/-- Python exceptions raised by the modelled code. -/
inductive PyError where
  | attributeError (name : String)
  | indexError
deriving DecidableEq

/-- The attributes a constructed `JetNet` instance holds.  `X` is referenced by
`__len__` (line 238) but never assigned anywhere in the class, so it is an
`Option` that the constructor leaves at `none` (a Python attribute lookup on an
unset attribute raises `AttributeError`). -/
structure JetNetObj where
  num_particles : ℕ
  feature_norms : List (Option ℚ)
  feature_shifts : List (Option ℚ)
  use_mask : Bool
  use_jet_features : Bool
  noise_padding : Bool
  feature_maxes : List ℚ
  pt_cutoff : ℚ
  data : Arr3
  jet_features : Option (List (List ℚ))
  X : Option Arr3
deriving DecidableEq

/-- Python `int()` truncation toward zero of a rational. -/
def pyIntOfRat (q : ℚ) : ℤ := Int.tdiv q.num q.den

/-- `JetNet.__init__` (lines 30-76), with the tensor read from the `.pt` file
passed in as `raw` (download and file I/O are external collaborators).  Line 51
evaluates `noise_padding and self.use_masks`; the attribute is named `use_mask`,
so `use_masks` was never assigned and the lookup raises `AttributeError` —
short-circuiting, this happens exactly when `noise_padding` is true, and
otherwise `self.noise_padding` is set to `False`.  `none` from the pT-cutoff
computation models the `IndexError` of line 172.  `int(len(dataset) *
train_fraction)` is truncation toward zero; its `toNat` matches Python list
slicing for the nonnegative fractions the class is used with. -/
def jetnet_init (raw : Arr3) (num_particles : ℕ)
    (feature_norms feature_shifts : List (Option ℚ)) (use_mask train : Bool)
    (train_fraction : ℚ) (num_pad_particles : ℕ)
    (use_num_particles_jet_feature noise_padding : Bool) : Except PyError JetNetObj :=
  let use_jet_features := use_num_particles_jet_feature && use_mask
  if noise_padding then .error (.attributeError "use_masks") else
  let dataset := load_dataset raw num_particles num_pad_particles use_mask
  let jf : Option (List (List ℚ)) :=
    if use_jet_features then some (get_jet_features num_particles dataset) else none
  let r := normalize_features feature_norms feature_shifts dataset
  match r.2.2 with
  | none => .error .indexError
  | some pc =>
    let d2 := r.1
    let tcut := (pyIntOfRat ((d2.length : ℚ) * train_fraction)).toNat
    .ok { num_particles := num_particles, feature_norms := feature_norms,
          feature_shifts := feature_shifts, use_mask := use_mask,
          use_jet_features := use_jet_features, noise_padding := false,
          feature_maxes := r.2.1, pt_cutoff := pc,
          data := if train then d2.take tcut else d2.drop tcut,
          jet_features := match jf with
            | some j => some (if train then j.take tcut else j.drop tcut)
            | none => none,
          X := none }

/-- `JetNet.__len__` (lines 237-238): `return len(self.X)`.  The attribute `X`
is never assigned, so the lookup raises `AttributeError`. -/
def jetnet_len (o : JetNetObj) : Except PyError ℕ :=
  match o.X with
  | some xs => .ok xs.length
  | none => .error (.attributeError "X")

/-- Construct an instance and call `__len__` on it (propagating construction
errors). -/
def lenOfInit (e : Except PyError JetNetObj) : Except PyError ℕ :=
  match e with
  | .ok o => jetnet_len o
  | .error err => .error err

/-- Did the computation succeed (no exception)? -/
def exceptOk {α : Type} (e : Except PyError α) : Bool :=
  match e with
  | .ok _ => true
  | .error _ => false

/-- The `data` attribute of a constructed instance (empty when construction
raised). -/
def initData (e : Except PyError JetNetObj) : Arr3 :=
  match e with
  | .ok o => o.data
  | .error _ => []

/-- The `use_jet_features` attribute of a constructed instance (`false` when
construction raised). -/
def initUseJetFeatures (e : Except PyError JetNetObj) : Bool :=
  match e with
  | .ok o => o.use_jet_features
  | .error _ => false

/-- The reference store: torch tensors are heap objects mutated in place; a
store maps an object identity (address) to the 3-D array it currently holds. -/
abbrev Store : Type := ℕ → Arr3

/-- `JetNet.normalize_features` with torch's in-place semantics made explicit:
the `dataset[:, :, i] /= ...`, `*= ...`, `+= ...` statements (lines 164-170)
mutate the tensor at address `a`; the method returns the same object reference
together with `feature_maxes` and `pt_cutoff`, and the store is updated at `a`. -/
def normalize_features_ref (norms shifts : List (Option ℚ)) (a : ℕ) (σ : Store) :
    (ℕ × List ℚ × Option ℚ) × Store :=
  let r := normalize_features norms shifts (σ a)
  ((a, r.2), fun b => if b = a then r.1 else σ b)

/-- `JetNet.unnormalize_features` with torch's in-place semantics made explicit:
lines 200-214 mutate the tensor at address `a` (the returned first tuple
component `dataset[:, :, -1]` is a view of that same object); the store is
updated at `a` with the transformed array. -/
def unnormalize_features_ref (norms shifts : List (Option ℚ)) (maxes : List ℚ)
    (use_mask : Bool) (a : ℕ) (ret_mask_separate is_real_data zmp znp : Bool) (σ : Store) :
    UnnormRet × Store :=
  (unnormalize_features norms shifts maxes use_mask (σ a) ret_mask_separate is_real_data zmp znp,
   fun b => if b = a then unnormalize_array norms shifts maxes use_mask is_real_data zmp znp (σ a)
            else σ b)

/-- An IEEE-754-style extended value: a finite rational, `±inf`, or `nan`.  Used
to model the torch float semantics of `normalize_features` where division by a
zero observed max produces `nan`/`inf` (invisible in the exact-rational model). -/
inductive EV where
  | fin (q : ℚ)
  | pinf
  | ninf
  | nan
deriving DecidableEq

/-- IEEE addition on extended values. -/
def EV.add : EV → EV → EV
  | .nan, _ => .nan
  | _, .nan => .nan
  | .fin a, .fin b => .fin (a + b)
  | .pinf, .ninf => .nan
  | .ninf, .pinf => .nan
  | .pinf, _ => .pinf
  | _, .pinf => .pinf
  | .ninf, _ => .ninf
  | _, .ninf => .ninf

/-- IEEE multiplication on extended values (`inf * 0 = nan`). -/
def EV.mul : EV → EV → EV
  | .nan, _ => .nan
  | _, .nan => .nan
  | .fin a, .fin b => .fin (a * b)
  | .pinf, .fin b => if b = 0 then .nan else if 0 < b then .pinf else .ninf
  | .fin a, .pinf => if a = 0 then .nan else if 0 < a then .pinf else .ninf
  | .ninf, .fin b => if b = 0 then .nan else if 0 < b then .ninf else .pinf
  | .fin a, .ninf => if a = 0 then .nan else if 0 < a then .ninf else .pinf
  | .pinf, .pinf => .pinf
  | .ninf, .ninf => .pinf
  | .pinf, .ninf => .ninf
  | .ninf, .pinf => .ninf

/-- IEEE division on extended values (`0 / 0 = nan`, `x / 0 = ±inf` for
`x ≠ 0`; rationals carry no signed zero). -/
def EV.div : EV → EV → EV
  | .nan, _ => .nan
  | _, .nan => .nan
  | .fin a, .fin b =>
      if b = 0 then (if a = 0 then .nan else if 0 < a then .pinf else .ninf)
      else .fin (a / b)
  | .fin _, .pinf => .fin 0
  | .fin _, .ninf => .fin 0
  | .pinf, .fin b => if 0 ≤ b then .pinf else .ninf
  | .ninf, .fin b => if 0 ≤ b then .ninf else .pinf
  | .pinf, _ => .nan
  | .ninf, _ => .nan

/-- IEEE absolute value on extended values. -/
def EV.evabs : EV → EV
  | .nan => .nan
  | .pinf => .pinf
  | .ninf => .pinf
  | .fin a => .fin |a|

/-- `torch.max` pairing on extended values (`nan` propagates through the
reduction). -/
def EV.evmax : EV → EV → EV
  | .nan, _ => .nan
  | _, .nan => .nan
  | .pinf, _ => .pinf
  | _, .pinf => .pinf
  | .ninf, b => b
  | a, .ninf => a
  | .fin a, .fin b => .fin (max a b)

/-- A 3-D tensor of extended (IEEE-style) values. -/
abbrev EVArr : Type := List (List (List EV))

/-- Element access on an extended-value tensor, defaulting to finite `0`. -/
def entryEV (d : EVArr) (n p i : ℕ) : EV := ((d.getD n []).getD p []).getD i (.fin 0)

/-- `transformParticle` for extended values. -/
def transformParticleEV (f : ℕ → EV → EV) (part : List EV) : List EV :=
  (List.range part.length).map (fun i => f i (part.getD i (.fin 0)))

/-- Line 161 over extended values: `torch.max(torch.abs(dataset[:, :, i]))`. -/
def featureMaxIEEE (d : EVArr) (i : ℕ) : EV :=
  ((d.flatten).map (fun part => (part.getD i (.fin 0)).evabs)).foldr EV.evmax (.fin 0)

/-- Lines 164-170 over extended values: scale by the observed max (IEEE
division: a zero max gives `nan`/`inf`), multiply by the norm target, add the
shift. -/
def normElemIEEE (norm shift : Option ℚ) (M : EV) (v : EV) : EV :=
  let v1 := match norm with
    | some m => (v.div M).mul (.fin m)
    | none => v
  match shift with
  | some s => if s ≠ 0 then v1.add (.fin s) else v1
  | none => v1

/-- The feature-scaling part of `JetNet.normalize_features` (lines 159-170) with
torch's IEEE float semantics for the entries: identical structure to
`normalize_features`, over extended values (the pT cutoff of line 172 does not
participate in the degenerate-column analysis and is not recomputed here). -/
def normalize_features_ieee (norms shifts : List (Option ℚ)) (d : EVArr) : EVArr × List EV :=
  let feature_maxes := (List.range ((((d.headD []).headD [])).length)).map
    (fun i => featureMaxIEEE d i)
  let d2 : EVArr := d.map fun jet => jet.map fun part =>
    transformParticleEV
      (fun i v => normElemIEEE (norms.getD i none) (shifts.getD i none)
        (feature_maxes.getD i (.fin 0)) v)
      part
  (d2, feature_maxes)

/-- The default `feature_norms` constructor argument `[1.0, 1.0, 1.0, 1.0]`. -/
def defNorms : List (Option ℚ) := [some 1, some 1, some 1, some 1]

/-- The default `feature_shifts` constructor argument `[0.0, 0.0, -0.5, -0.5]`. -/
def defShifts : List (Option ℚ) := [some 0, some 0, some (-(1/2)), some (-(1/2))]

/-- Example raw tensor: one jet with two 4-feature particles (distinct pT
values, so the pT-cutoff computation succeeds). -/
def rawEx1 : Arr3 := [[[1, 1, 1, 1], [2, 2, 2, 1]]]

/-- Example raw tensor for the degenerate truncation configuration: one jet of
30 particles `[0, 0, i + 1, 1]`. -/
def rawEx30 : Arr3 := [(List.range 30).map (fun i => [0, 0, (i : ℚ) + 1, 1])]

/-- Example tensor with 30 particles whose mask column (feature 3) is 1 on the
first 15 particles and 0 on the rest. -/
def rawExHalf : Arr3 := [(List.range 30).map (fun i => [0, 0, 0, if i < 15 then 1 else 0])]

/-- Example tensor with 10 particles, 5 of them mask-real. -/
def rawExTen : Arr3 := [(List.range 10).map (fun i => [0, 0, 0, if i < 5 then 1 else 0])]

/-- Extended-value tensor whose feature column 0 is constant 0 (and the other
columns nonzero). -/
def evExZeroCol : EVArr := [[[.fin 0, .fin 1, .fin 1, .fin 1], [.fin 0, .fin 2, .fin 2, .fin 1]]]

/-- A one-jet, one-particle, one-feature tensor holding the value 1. -/
def dOne : Arr3 := [[[1]]]

/-- A one-jet, one-particle, two-feature tensor. -/
def dPair : Arr3 := [[[3, 7]]]

/-! ### Helper lemmas -/

theorem getD_range_map {α : Type} (f : ℕ → α) (L n : ℕ) (d : α) :
    ((List.range L).map f).getD n d = if n < L then f n else d := by
  by_cases h : n < L
  · rw [List.getD_eq_getElem?_getD, List.getElem?_map]
    simp [List.getElem?_range h, h]
  · rw [List.getD_eq_default]
    · simp [h]
    · simpa using Nat.le_of_not_lt h

theorem getD_map_lt {α β : Type} (f : α → β) (l : List α) (n : ℕ) (d : β) (d' : α)
    (h : n < l.length) :
    (l.map f).getD n d = f (l.getD n d') := by
  rw [List.getD_eq_getElem?_getD, List.getElem?_map, List.getElem?_eq_getElem h,
    List.getD_eq_getElem l d' h]
  rfl

theorem length_transformParticle (f : ℕ → ℚ → ℚ) (part : List ℚ) :
    (transformParticle f part).length = part.length := by
  simp [transformParticle]

theorem getD_transformParticle (f : ℕ → ℚ → ℚ) (part : List ℚ) (i : ℕ) (h : i < part.length) :
    (transformParticle f part).getD i 0 = f i (part.getD i 0) := by
  simp [transformParticle, getD_range_map, h]

theorem getD_transformParticle_ge (f : ℕ → ℚ → ℚ) (part : List ℚ) (i : ℕ)
    (h : part.length ≤ i) :
    (transformParticle f part).getD i 0 = 0 := by
  rw [transformParticle, getD_range_map]
  simp [Nat.not_lt.mpr h]


theorem getD_mapmap {g : List ℚ → List ℚ} (d : Arr3) (n p : ℕ)
    (hn : n < d.length) (hp : p < (d.getD n []).length) :
    ((d.map fun jet => jet.map g).getD n []).getD p [] = g ((d.getD n []).getD p []) := by
  rw [getD_map_lt _ d n [] [] hn, getD_map_lt g _ p [] [] hp]

theorem entry_mapmap {g : List ℚ → List ℚ} (d : Arr3) (n p i : ℕ)
    (hn : n < d.length) (hp : p < (d.getD n []).length) :
    entry (d.map fun jet => jet.map g) n p i = (g ((d.getD n []).getD p [])).getD i 0 := by
  unfold entry
  rw [getD_mapmap d n p hn hp]

theorem le_foldr_max (l : List ℚ) (a x : ℚ) (h : x ∈ l) : x ≤ l.foldr max a := by
  induction l with
  | nil => cases h
  | cons y t ih =>
    rcases List.mem_cons.mp h with rfl | h'
    · exact le_max_left _ _
    · exact le_trans (ih h') (le_max_right _ _)

theorem abs_entry_le_featureMaxL (d : Arr3) (n p i : ℕ)
    (hn : n < d.length) (hp : p < (d.getD n []).length) :
    |entry d n p i| ≤ featureMaxL d i := by
  have hjet : d.getD n [] ∈ d := by
    rw [List.getD_eq_getElem d [] hn]; exact List.getElem_mem hn
  have hpart : (d.getD n []).getD p [] ∈ d.getD n [] := by
    rw [List.getD_eq_getElem _ [] hp]; exact List.getElem_mem hp
  have hflat : (d.getD n []).getD p [] ∈ d.flatten := List.mem_flatten.mpr ⟨_, hjet, hpart⟩
  have hmem : |((d.getD n []).getD p []).getD i 0| ∈
      (d.flatten).map (fun part => |part.getD i 0|) := List.mem_map_of_mem _ hflat
  exact le_foldr_max _ 0 _ hmem

theorem normElem_none_none (M v : ℚ) : normElem none none M v = v := rfl

theorem unnormElem_none_none (M v : ℚ) : unnormElem none none M v = v := rfl

theorem unnorm_norm_elem (m s M v : ℚ) (hm : m ≠ 0) (hv : |v| ≤ M) :
    unnormElem (some m) (some s) M (normElem (some m) (some s) M v) = v := by
  rcases eq_or_ne M 0 with hM | hM
  · have hv0 : v = 0 := by
      have := abs_nonneg v
      have h0 : |v| = 0 := le_antisymm (hM ▸ hv) this
      exact abs_eq_zero.mp h0
    subst hM; subst hv0
    by_cases hs : s = 0 <;> simp [normElem, unnormElem, hs]
  · by_cases hs : s = 0
    · simp only [normElem, unnormElem, hs, ne_eq, not_true_eq_false, if_false]
      field_simp
      ring
    · simp only [normElem, unnormElem, hs, ne_eq, not_false_eq_true, if_true,
        add_sub_cancel_right]
      field_simp
      ring

theorem normalize_maxes_eq (norms shifts : List (Option ℚ)) (d : Arr3) :
    (normalize_features norms shifts d).2.1 =
      (List.range (numFeatures d)).map (fun i => featureMaxL d i) := rfl

theorem normalize_maxes_getD (norms shifts : List (Option ℚ)) (d : Arr3) (i : ℕ)
    (h : i < numFeatures d) :
    ((normalize_features norms shifts d).2.1).getD i 0 = featureMaxL d i := by
  rw [normalize_maxes_eq, getD_range_map]
  simp [h]

theorem normalize_fst_eq (norms shifts : List (Option ℚ)) (d : Arr3) :
    (normalize_features norms shifts d).1 =
      d.map fun jet => jet.map fun part =>
        transformParticle
          (fun i v => normElem (norms.getD i none) (shifts.getD i none)
            (((normalize_features norms shifts d).2.1).getD i 0) v)
          part := rfl

theorem length_normalize (norms shifts : List (Option ℚ)) (d : Arr3) :
    (normalize_features norms shifts d).1.length = d.length := by
  rw [normalize_fst_eq]; simp

theorem jet_normalize (norms shifts : List (Option ℚ)) (d : Arr3) (n : ℕ)
    (hn : n < d.length) :
    ((normalize_features norms shifts d).1.getD n []).length = (d.getD n []).length := by
  rw [normalize_fst_eq, getD_map_lt _ d n [] [] hn]
  simp

theorem part_normalize (norms shifts : List (Option ℚ)) (d : Arr3) (n p : ℕ)
    (hn : n < d.length) (hp : p < (d.getD n []).length) :
    (((normalize_features norms shifts d).1.getD n []).getD p []).length
      = ((d.getD n []).getD p []).length := by
  rw [normalize_fst_eq, getD_mapmap d n p hn hp, length_transformParticle]

theorem entry_normalize (norms shifts : List (Option ℚ)) (d : Arr3) (n p i : ℕ)
    (hn : n < d.length) (hp : p < (d.getD n []).length)
    (hi : i < ((d.getD n []).getD p []).length) :
    entry (normalize_features norms shifts d).1 n p i =
      normElem (norms.getD i none) (shifts.getD i none)
        (((normalize_features norms shifts d).2.1).getD i 0) (entry d n p i) := by
  rw [normalize_fst_eq]
  rw [entry_mapmap d n p i hn hp, getD_transformParticle _ _ i hi]
  rfl

theorem entry_unnormalize_loop (norms shifts : List (Option ℚ)) (maxes : List ℚ)
    (d : Arr3) (n p i : ℕ) (hn : n < d.length) (hp : p < (d.getD n []).length)
    (hi : i < ((d.getD n []).getD p []).length) :
    entry (unnormalize_loop norms shifts maxes d) n p i =
      unnormElem (norms.getD i none) (shifts.getD i none) (maxes.getD i 0) (entry d n p i) := by
  unfold unnormalize_loop
  rw [entry_mapmap d n p i hn hp, getD_transformParticle _ _ i hi]
  rfl

theorem unnormalize_array_real (norms shifts : List (Option ℚ)) (maxes : List ℚ)
    (um zmp znp : Bool) (d : Arr3) :
    unnormalize_array norms shifts maxes um true zmp znp d
      = unnormalize_loop norms shifts maxes d := by
  simp [unnormalize_array]

theorem getD_transformParticleEV (f : ℕ → EV → EV) (part : List EV) (i : ℕ)
    (h : i < part.length) :
    (transformParticleEV f part).getD i (.fin 0) = f i (part.getD i (.fin 0)) := by
  simp [transformParticleEV, getD_range_map, h]

theorem entryEV_mapmap {g : List EV → List EV} (d : EVArr) (n p i : ℕ)
    (hn : n < d.length) (hp : p < (d.getD n []).length) :
    entryEV (d.map fun jet => jet.map g) n p i
      = (g ((d.getD n []).getD p [])).getD i (.fin 0) := by
  unfold entryEV
  rw [getD_map_lt _ d n [] [] hn, getD_map_lt g _ p [] [] hp]

theorem ieee_maxes_getD (norms shifts : List (Option ℚ)) (d : EVArr) (i : ℕ)
    (h : i < (((d.headD []).headD [])).length) :
    ((normalize_features_ieee norms shifts d).2).getD i (.fin 0) = featureMaxIEEE d i := by
  show (((List.range ((((d.headD []).headD [])).length)).map
    (fun j => featureMaxIEEE d j)).getD i (.fin 0)) = featureMaxIEEE d i
  rw [getD_range_map]
  split
  · rfl
  · exact absurd h (by assumption)

theorem ieee_fst_eq (norms shifts : List (Option ℚ)) (d : EVArr) :
    (normalize_features_ieee norms shifts d).1 =
      d.map fun jet => jet.map fun part =>
        transformParticleEV
          (fun i v => normElemIEEE (norms.getD i none) (shifts.getD i none)
            (((normalize_features_ieee norms shifts d).2).getD i (.fin 0)) v)
          part := rfl

theorem entry_normalize_ieee (norms shifts : List (Option ℚ)) (d : EVArr) (n p i : ℕ)
    (hn : n < d.length) (hp : p < (d.getD n []).length)
    (hi : i < ((d.getD n []).getD p []).length) :
    entryEV (normalize_features_ieee norms shifts d).1 n p i =
      normElemIEEE (norms.getD i none) (shifts.getD i none)
        (((normalize_features_ieee norms shifts d).2).getD i (.fin 0)) (entryEV d n p i) := by
  rw [ieee_fst_eq]
  rw [entryEV_mapmap d n p i hn hp, getD_transformParticleEV _ _ i hi]
  rfl

theorem nan_normElemIEEE (norm shift : Option ℚ) (m : EV) :
    normElemIEEE norm shift m EV.nan = EV.nan := by
  cases norm <;> cases shift <;> cases m <;> simp [normElemIEEE, EV.div, EV.mul, EV.add]

theorem load_dataset_mask_length (raw : Arr3) (np npad : ℕ) (um : Bool)
    (jet : List (List ℚ)) (hjet : jet ∈ load_dataset raw np npad um) :
    ∃ jet1 ∈ load_dataset raw np npad true, jet.length = jet1.length := by
  cases um
  · have heq : load_dataset raw np npad false
        = (load_dataset raw np npad true).map (fun j => j.map (fun part => part.dropLast)) := by
      simp [load_dataset]
    rw [heq] at hjet
    rcases List.mem_map.mp hjet with ⟨a, ha, rfl⟩
    exact ⟨a, ha, by simp⟩
  · exact ⟨jet, hjet, rfl⟩

theorem load_mem_length_true (raw : Arr3) (np npad : ℕ) (jet : List (List ℚ))
    (hjet : jet ∈ load_dataset raw np npad true) :
    ∃ jet0 ∈ raw, jet.length =
      (if 0 < (np : ℤ) - npad ∧ (np : ℤ) - npad < shape1 raw
        then min (np - npad) jet0.length else jet0.length)
      + (if 0 < npad then npad else 0) := by
  by_cases hc : 0 < (np : ℤ) - npad ∧ (np : ℤ) - npad < shape1 raw
  · by_cases hpad : 0 < npad
    · simp only [load_dataset, hc, hpad, if_true, ite_true] at hjet
      rcases List.mem_map.mp hjet with ⟨a, ha, rfl⟩
      rcases List.mem_map.mp ha with ⟨b, hb, rfl⟩
      refine ⟨b, hb, ?_⟩
      simp [hc, hpad]
    · simp only [load_dataset, hc, hpad, if_true, ite_true, ite_false, if_false] at hjet
      rcases List.mem_map.mp hjet with ⟨b, hb, rfl⟩
      refine ⟨b, hb, ?_⟩
      simp [hc, hpad]
  · by_cases hpad : 0 < npad
    · simp only [load_dataset, hc, hpad, if_true, ite_true, ite_false, if_false] at hjet
      rcases List.mem_map.mp hjet with ⟨b, hb, rfl⟩
      refine ⟨b, hb, ?_⟩
      rw [if_neg hc, if_pos hpad]
      simp
    · simp only [load_dataset, hc, hpad, eq_self_iff_true, if_true, ite_true, ite_false,
        if_false] at hjet
      refine ⟨jet, hjet, ?_⟩
      rw [if_neg hc, if_neg hpad]
      simp

theorem init_record_mem (raw : Arr3) (np npad : ℕ) (norms shifts : List (Option ℚ))
    (um train ujf : Bool) (tf : ℚ) (rec : List (List ℚ))
    (hrec : rec ∈ initData (jetnet_init raw np norms shifts um train tf npad ujf false)) :
    ∃ jet ∈ load_dataset raw np npad um, rec.length = jet.length := by
  simp only [jetnet_init, Bool.false_eq_true, if_false] at hrec
  cases hpc : (normalize_features norms shifts (load_dataset raw np npad um)).2.2 with
  | none =>
    rw [hpc] at hrec
    simp [initData] at hrec
  | some pc =>
    rw [hpc] at hrec
    simp only [initData] at hrec
    have hsub : rec ∈ (normalize_features norms shifts (load_dataset raw np npad um)).1 := by
      cases train
      · simp only [Bool.false_eq_true, if_false] at hrec
        exact List.drop_subset _ _ hrec
      · simp only [if_true] at hrec
        exact List.take_subset _ _ hrec
    rw [normalize_fst_eq] at hsub
    rcases List.mem_map.mp hsub with ⟨jet, hjet, rfl⟩
    exact ⟨jet, hjet, by simp⟩

/-! ### Claims -/

/-- C1: `length()` is claimed to return the number of records in the active
split; in fact `__len__` reads `self.X`, an attribute never assigned by
`__init__` (which stores the split in `self.data`), so on every successfully
constructed instance `length()` raises `AttributeError`.  Evaluated here at the
default configuration on a loadable dataset: construction succeeds, and the
subsequent `length()` call errors instead of returning the split size. -/
theorem len_raises_attribute_error :
    exceptOk (jetnet_init rawEx1 0 defNorms defShifts true true (7/10) 0 true false) = true
    ∧ lenOfInit (jetnet_init rawEx1 0 defNorms defShifts true true (7/10) 0 true false)
      = .error (.attributeError "X") := by
  constructor
  · with_unfolding_all rfl
  · with_unfolding_all rfl

/-- C2: with `ret_mask_separate = false` the claim says `unnormalize_features`
returns the single combined array; in fact line 216 parses as
`(dataset[:, :, -1], (mask if ret_mask_separate else dataset))`, so the function
returns a 2-tuple for every input in every mode — never a single array. -/
theorem unnormalize_combined_mode_still_tuple (norms shifts : List (Option ℚ))
    (maxes : List ℚ) (um : Bool) (d : Arr3) (ird zmp znp : Bool) :
    (unnormalize_features norms shifts maxes um d false ird zmp znp).isTuple = true := rfl

/-- C3 counterexample: the round-trip claim quantifies over any configuration
with non-null max-abs target and shift, which includes a zero norm target; with
`feature_norms = [0]`, `feature_shifts = [0]` and input `[[[1]]]`, normalizing
maps the entry to 0 and unnormalizing divides by the zero target, so the
original value 1 is not reconstructed. -/
theorem roundtrip_fails_for_zero_norm_target :
    entry (unnormalize_array [some 0] [some 0]
        (normalize_features [some 0] [some 0] dOne).2.1 true true true true
        (normalize_features [some 0] [some 0] dOne).1) 0 0 0
      ≠ entry dOne 0 0 0 := by
  have h1 : entry (unnormalize_array [some 0] [some 0]
      (normalize_features [some 0] [some 0] dOne).2.1 true true true true
      (normalize_features [some 0] [some 0] dOne).1) 0 0 0 = 0 := by
    with_unfolding_all rfl
  have h2 : entry dOne 0 0 0 = 1 := by with_unfolding_all rfl
  rw [h1, h2]
  norm_num

/-- C3 (amended): for every in-bounds entry, if feature `i` has a non-null and
nonzero max-abs target and a non-null shift, then unnormalizing (with
`is_real_data = true`, i.e. without the generated-data post-processing) after
normalizing reconstructs the entry exactly; and if both the target and the
shift are null, the feature column passes through both directions unchanged. -/
theorem normalize_unnormalize_roundtrip (norms shifts : List (Option ℚ)) (d : Arr3)
    (um zmp znp : Bool) (n p i : ℕ)
    (hn : n < d.length) (hp : p < (d.getD n []).length)
    (hi : i < ((d.getD n []).getD p []).length) (hiF : i < numFeatures d) :
    (∀ m s, norms.getD i none = some m → m ≠ 0 → shifts.getD i none = some s →
        entry (unnormalize_array norms shifts (normalize_features norms shifts d).2.1 um true
          zmp znp (normalize_features norms shifts d).1) n p i = entry d n p i)
    ∧ (norms.getD i none = none → shifts.getD i none = none →
        entry (normalize_features norms shifts d).1 n p i = entry d n p i
        ∧ entry (unnormalize_array norms shifts (normalize_features norms shifts d).2.1 um true
            zmp znp d) n p i = entry d n p i) := by
  have hn2 : n < (normalize_features norms shifts d).1.length := by
    rw [length_normalize]; exact hn
  have hp2 : p < ((normalize_features norms shifts d).1.getD n []).length := by
    rw [jet_normalize norms shifts d n hn]; exact hp
  have hi2 : i < (((normalize_features norms shifts d).1.getD n []).getD p []).length := by
    rw [part_normalize norms shifts d n p hn hp]; exact hi
  constructor
  · intro m s hm hm0 hs
    rw [unnormalize_array_real, entry_unnormalize_loop norms shifts _ _ n p i hn2 hp2 hi2,
      entry_normalize norms shifts d n p i hn hp hi, normalize_maxes_getD norms shifts d i hiF,
      hm, hs]
    exact unnorm_norm_elem m s _ _ hm0 (abs_entry_le_featureMaxL d n p i hn hp)
  · intro hm hs
    refine ⟨?_, ?_⟩
    · rw [entry_normalize norms shifts d n p i hn hp hi, hm, hs, normElem_none_none]
    · rw [unnormalize_array_real, entry_unnormalize_loop norms shifts _ _ n p i hn hp hi,
        hm, hs, unnormElem_none_none]

/-- C3 witness: the round-trip theorem applied to the concrete tensor `dPair`
at feature 0 (norm target 1, shift -1/2). -/
theorem normalize_unnormalize_roundtrip_witness :
    (0 < dPair.length ∧ 0 < (dPair.getD 0 []).length
      ∧ 0 < ((dPair.getD 0 []).getD 0 []).length ∧ 0 < numFeatures dPair)
    ∧ ((∀ m s, ([some 1, none] : List (Option ℚ)).getD 0 none = some m → m ≠ 0 →
          ([some (-(1/2)), none] : List (Option ℚ)).getD 0 none = some s →
          entry (unnormalize_array [some 1, none] [some (-(1/2)), none]
            (normalize_features [some 1, none] [some (-(1/2)), none] dPair).2.1 true true
            true true
            (normalize_features [some 1, none] [some (-(1/2)), none] dPair).1) 0 0 0
            = entry dPair 0 0 0)
      ∧ (([some 1, none] : List (Option ℚ)).getD 0 none = none →
          ([some (-(1/2)), none] : List (Option ℚ)).getD 0 none = none →
          entry (normalize_features [some 1, none] [some (-(1/2)), none] dPair).1 0 0 0
            = entry dPair 0 0 0
          ∧ entry (unnormalize_array [some 1, none] [some (-(1/2)), none]
              (normalize_features [some 1, none] [some (-(1/2)), none] dPair).2.1 true true
              true true dPair) 0 0 0 = entry dPair 0 0 0)) :=
  ⟨⟨by decide, by decide, by decide, by decide⟩,
   normalize_unnormalize_roundtrip [some 1, none] [some (-(1/2)), none] dPair true true true
     0 0 0 (by decide) (by decide) (by decide) (by decide)⟩

/-- C4: after `add_noise_padding`, every particle slot whose shifted mask value
(feature 3) is nonnegative — i.e. whose pre-shift mask was at least 0.5 — has
all of its features exactly equal to their pre-padding values: the generated
noise is zeroed on such slots (the code zeroes noise where the mask value is not
exactly -0.5, which covers every nonnegative value), and the mask column itself
only ever receives the appended zero column.  Noise is therefore only added on
slots whose shifted mask value is negative (namely exactly -0.5). -/
theorem noise_padding_preserves_real_particles (raw d : Arr3) (n p j : ℕ)
    (h : entry d n p 3 ≥ 0) :
    entry (add_noise_padding raw d) n p j = entry d n p j := by
  have hne : entry d n p 3 + 1/2 ≠ 0 := by
    have hpos : (0:ℚ) < entry d n p 3 + 1/2 := by linarith
    exact ne_of_gt hpos
  simp only [entry] at hne
  by_cases hn : n < d.length
  · by_cases hp : p < (d.getD n []).length
    · by_cases hj : j < ((d.getD n []).getD p []).length
      · simp only [add_noise_padding, entry, getD_range_map, hn, hp, hj, ite_true, if_true]
        by_cases hjl : j + 1 = ((d.getD n []).getD p []).length
        · simp [hjl]
        · simp only [hjl, if_false, ite_false]
          rw [if_pos hne]
          ring
      · simp only [add_noise_padding, entry, getD_range_map, hn, hp, hj, ite_true, if_true,
          ite_false, if_false]
        rw [List.getD_eq_default _ _ (Nat.le_of_not_lt hj)]
    · simp only [add_noise_padding, entry, getD_range_map, hn, hp, ite_true, if_true,
        ite_false, if_false, List.getD_nil]
      rw [List.getD_eq_default _ _ (Nat.le_of_not_lt hp)]
      simp
  · simp only [add_noise_padding, entry, getD_range_map, hn, ite_false, if_false,
      List.getD_nil]
    rw [List.getD_eq_default _ _ (Nat.le_of_not_lt hn)]
    simp

/-- C4 witness: the preservation theorem applied to a concrete real-particle
slot (shifted mask value 1/2 at jet 0, particle 0 of `rawEx1`). -/
theorem noise_padding_preserves_witness :
    entry rawEx1 0 0 3 ≥ 0
    ∧ entry (add_noise_padding dOne rawEx1) 0 0 2 = entry rawEx1 0 0 2 :=
  ⟨by with_unfolding_all decide,
   noise_padding_preserves_real_particles dOne rawEx1 0 0 2 (by with_unfolding_all decide)⟩

/-- C5 counterexample: the claim says a configuration with target particle
count 2 and pad count 2 (so `P_target - P_pad <= 0`) is rejected with
`ConfigurationError`; in fact construction performs no validation and succeeds
on a loadable dataset. -/
theorem degenerate_truncation_not_rejected :
    exceptOk (jetnet_init rawEx30 2 defNorms defShifts true true (7/10) 2 true false)
      = true := by
  with_unfolding_all rfl

/-- C5 (amended): no validation occurs for the degenerate request.  For every
configuration with `0 < P_target` and `P_target - P_pad <= 0` on 30-particle
raw data, the truncation condition of line 134 is false, so the particle axis
is left at 30 and the padding of line 139 is still applied: every record of a
constructed dataset has particle-axis length `30 + P_pad` instead of an error
being raised. -/
theorem degenerate_truncation_pads_to_thirty_plus (raw : Arr3) (np npad : ℕ)
    (norms shifts : List (Option ℚ)) (um train ujf : Bool) (tf : ℚ)
    (h30 : ∀ jet ∈ raw, jet.length = 30) (hnp : 0 < np) (hle : (np : ℤ) ≤ npad) :
    ∀ rec ∈ initData (jetnet_init raw np norms shifts um train tf npad ujf false),
      rec.length = 30 + npad := by
  intro rec hrec
  obtain ⟨jet, hjet, hlen⟩ := init_record_mem raw np npad norms shifts um train ujf tf rec hrec
  obtain ⟨jet1, hjet1, hlen1⟩ := load_dataset_mask_length raw np npad um jet hjet
  obtain ⟨jet0, hjet0, hlen0⟩ := load_mem_length_true raw np npad jet1 hjet1
  have h30d := h30 jet0 hjet0
  have hc : ¬(0 < (np : ℤ) - npad ∧ (np : ℤ) - npad < shape1 raw) := by
    intro hcc
    omega
  have hpad : 0 < npad := by omega
  rw [hlen, hlen1, hlen0, if_neg hc, if_pos hpad, h30d]

/-- C5 witness: the amended theorem applied to a concrete 30-particle dataset
with target count 2 and pad count 2; every record of the constructed dataset
has 32 particle slots. -/
theorem degenerate_truncation_witness :
    (0 < 2 ∧ (2 : ℤ) ≤ 2 ∧ ∀ jet ∈ rawEx30, jet.length = 30)
    ∧ ∀ rec ∈ initData (jetnet_init rawEx30 2 defNorms defShifts true false (7/10) 2 true
        false), rec.length = 30 + 2 :=
  ⟨⟨by decide, by decide, by decide⟩,
   degenerate_truncation_pads_to_thirty_plus rawEx30 2 2 defNorms defShifts true false true
     (7/10) (by decide) (by decide) (by decide)⟩

/-- C6 counterexample: the claim says requesting the jet feature while the mask
is disabled fails with `ConfigurationError`; in fact construction succeeds
(`use_num_particles_jet_feature = true`, `use_mask = false`, no noise padding):
the jet feature is silently disabled instead. -/
theorem jet_feature_without_mask_not_rejected :
    exceptOk (jetnet_init rawEx1 0 defNorms defShifts false true (7/10) 0 true false)
      = true := by
  with_unfolding_all rfl

/-- C6 (amended): with the mask disabled, no `ConfigurationError` exists in the
code.  Requesting noise padding makes construction fail — but with
`AttributeError` (line 51 reads the never-assigned attribute `use_masks`), for
any mask setting the moment `noise_padding` is true; requesting the jet feature
without the mask does not fail at all: `use_num_particles_jet_feature and
use_mask` silently stores `False` in `use_jet_features`. -/
theorem nomask_config_behavior (raw : Arr3) (np npad : ℕ)
    (norms shifts : List (Option ℚ)) (train ujf : Bool) (tf : ℚ) :
    jetnet_init raw np norms shifts false train tf npad ujf true
      = .error (.attributeError "use_masks")
    ∧ initUseJetFeatures (jetnet_init raw np norms shifts false train tf npad ujf false)
      = false := by
  constructor
  · rfl
  · simp only [jetnet_init, Bool.and_false, Bool.false_eq_true, if_false]
    cases hpc : (normalize_features norms shifts (load_dataset raw np npad false)).2.2 with
    | none => simp [initUseJetFeatures]
    | some pc => simp [initUseJetFeatures]

/-- C7 counterexample: the claim says that with target particle count 0 the jet
feature divides by the full 30 particles; in fact `get_jet_features` divides by
`self.num_particles`, the raw constructor argument.  On a 30-particle jet with
15 mask-real particles and `num_particles = 0`, the claimed value is
`15 / 30 = 1/2`, but the code divides by zero (`inf`/`nan` in torch floats;
0 in the exact-rational model) — in particular the result is not `1/2`. -/
theorem jet_feature_divisor_not_thirty :
    get_jet_features 0 rawExHalf ≠ [[(1:ℚ)/2]] := by
  have h : get_jet_features 0 rawExHalf = [[0]] := by with_unfolding_all rfl
  rw [h]
  intro hc
  have h0 : (0 : ℚ) = 1/2 := by
    have h1 := congrArg (fun l : List (List ℚ) => (l.headD []).headD 0) hc
    simp at h1
  norm_num at h0

/-- C7 (amended): for `num_particles > 0` (in which case the constructor
argument equals the post-adjustment particle count for valid configurations),
`get_jet_features` returns an `[N, 1]` array whose entry for each jet is the
sum of the jet's mask column (feature 3) divided by `num_particles`; with
target count 0 the divisor is 0, not 30. -/
theorem jet_feature_formula (np : ℕ) (d : Arr3) (n : ℕ) (_hnp : 0 < np)
    (hn : n < d.length) :
    (get_jet_features np d).length = d.length
    ∧ (get_jet_features np d).getD n [] =
        [((d.getD n []).map (fun part => part.getD 3 0)).sum / (np : ℚ)] := by
  constructor
  · simp [get_jet_features]
  · unfold get_jet_features
    rw [getD_map_lt _ d n [] [] hn]

/-- C7 witness: a jet of 10 particles with 5 mask-real particles at
`num_particles = 10` yields the jet feature 1/2. -/
theorem jet_feature_formula_witness :
    (0 < 10 ∧ 0 < rawExTen.length)
    ∧ (get_jet_features 10 rawExTen).getD 0 [] = [(1:ℚ)/2] := by
  refine ⟨⟨by decide, by decide⟩, ?_⟩
  rw [(jet_feature_formula 10 rawExTen 0 (by decide) (by decide)).2]
  with_unfolding_all rfl

/-- C8: for every valid configuration (`0 < P_target ≤ 30` with
`P_pad < P_target`, or `P_target = 0` with `P_pad = 0`) on raw data whose jets
all have 30 particles, every record of the constructed dataset has
particle-axis length `P_target`, or 30 when `P_target = 0`. -/
theorem particle_axis_length (raw : Arr3) (np npad : ℕ)
    (norms shifts : List (Option ℚ)) (um train ujf : Bool) (tf : ℚ)
    (h30 : ∀ jet ∈ raw, jet.length = 30) (hsh : shape1 raw = 30)
    (hvalid : (0 < np ∧ np ≤ 30 ∧ npad < np) ∨ (np = 0 ∧ npad = 0)) :
    ∀ rec ∈ initData (jetnet_init raw np norms shifts um train tf npad ujf false),
      rec.length = if 0 < np then np else 30 := by
  intro rec hrec
  obtain ⟨jet, hjet, hlen⟩ := init_record_mem raw np npad norms shifts um train ujf tf rec hrec
  obtain ⟨jet1, hjet1, hlen1⟩ := load_dataset_mask_length raw np npad um jet hjet
  obtain ⟨jet0, hjet0, hlen0⟩ := load_mem_length_true raw np npad jet1 hjet1
  have h30d := h30 jet0 hjet0
  have hifpad : (if 0 < npad then npad else 0) = npad := by split <;> omega
  rw [hlen, hlen1, hlen0, h30d, hifpad, hsh]
  rcases hvalid with ⟨h1, h2, h3⟩ | ⟨h1, h2⟩
  · by_cases hc : 0 < (np : ℤ) - npad ∧ (np : ℤ) - npad < ((30:ℕ) : ℤ)
    · rw [if_pos hc, if_pos h1]
      rw [min_def]
      split <;> omega
    · rw [if_neg hc, if_pos h1]
      omega
  · subst h1
    subst h2
    norm_num

/-- C8 witness: the shape theorem applied to a concrete 30-particle dataset
with target count 2 and pad count 1: the single test-split record has 2
particle slots. -/
theorem particle_axis_length_witness :
    ((∀ jet ∈ rawEx30, jet.length = 30) ∧ shape1 rawEx30 = 30
      ∧ ((0 < 2 ∧ 2 ≤ 30 ∧ 1 < 2) ∨ (2 = 0 ∧ 1 = 0)))
    ∧ (∀ rec ∈ initData (jetnet_init rawEx30 2 defNorms defShifts true false (7/10) 1 true
        false), rec.length = if 0 < 2 then 2 else 30)
    ∧ initData (jetnet_init rawEx30 2 defNorms defShifts true false (7/10) 1 true false) ≠ [] :=
  ⟨⟨by decide, by decide, by decide⟩,
   particle_axis_length rawEx30 2 1 defNorms defShifts true false true (7/10) (by decide)
     (by decide) (by decide),
   by with_unfolding_all decide⟩

/-- C9 counterexample: the claim says a constant-zero feature column with a
non-null max-abs target does not produce NaN/Inf under an explicit
zero-division policy; in fact the scaling of line 166 divides by the observed
max unconditionally.  Under torch float (IEEE) semantics, on a dataset whose
feature column 0 is constant 0, the entry becomes `0 / 0 = nan`. -/
theorem zero_column_produces_nan :
    entryEV (normalize_features_ieee defNorms defShifts evExZeroCol).1 0 0 0 = EV.nan := by
  with_unfolding_all rfl

/-- C9 (amended): no zero-division policy exists.  For every dataset whose
feature column `i` has observed max-abs 0 (a constant-zero column) and whose
max-abs target is non-null, every in-bounds entry of column `i` after
`normalize_features` is NaN under IEEE float semantics: the unguarded division
`0 / 0` produces `nan`, which propagates through the scaling and the shift. -/
theorem zero_column_normalizes_to_nan (norms shifts : List (Option ℚ)) (d : EVArr)
    (n p i : ℕ) (m : ℚ)
    (hn : n < d.length) (hp : p < (d.getD n []).length)
    (hi : i < ((d.getD n []).getD p []).length)
    (hiF : i < (((d.headD []).headD [])).length)
    (hm : norms.getD i none = some m)
    (hM : featureMaxIEEE d i = EV.fin 0)
    (h0 : entryEV d n p i = EV.fin 0) :
    entryEV (normalize_features_ieee norms shifts d).1 n p i = EV.nan := by
  rw [entry_normalize_ieee norms shifts d n p i hn hp hi,
    ieee_maxes_getD norms shifts d i hiF, hM, h0, hm]
  cases hsh : shifts.getD i none with
  | none => simp [normElemIEEE, EV.div, EV.mul]
  | some s => simp [normElemIEEE, EV.div, EV.mul, EV.add]

/-- C9 witness: the NaN theorem applied to the second particle of the concrete
constant-zero-column dataset `evExZeroCol` at feature 0 with the default norm
target 1. -/
theorem zero_column_nan_witness :
    (featureMaxIEEE evExZeroCol 0 = EV.fin 0 ∧ defNorms.getD 0 none = some 1)
    ∧ entryEV (normalize_features_ieee defNorms defShifts evExZeroCol).1 0 1 0 = EV.nan :=
  ⟨⟨by with_unfolding_all rfl, rfl⟩,
   zero_column_normalizes_to_nan defNorms defShifts evExZeroCol 0 1 0 1 (by decide)
     (by decide) (by decide) (by decide) rfl (by with_unfolding_all rfl)
     (by with_unfolding_all rfl)⟩

/-- C10: both `normalize_features` and `unnormalize_features` operate in place
on the tensor object passed to them (torch `/=`, `*=`, `+=`, and indexed
assignment): in the explicit-store model, `normalize_features` returns the same
object reference it was given, after each call the store holds the transformed
array at that reference (so the caller's array no longer holds its original
values), and no other object is touched. -/
theorem normalization_mutates_in_place (norms shifts : List (Option ℚ)) (maxes : List ℚ)
    (um rms ird zmp znp : Bool) (a b : ℕ) (σ : Store) (hab : b ≠ a) :
    (normalize_features_ref norms shifts a σ).1.1 = a
    ∧ (normalize_features_ref norms shifts a σ).2 a
        = (normalize_features norms shifts (σ a)).1
    ∧ (normalize_features_ref norms shifts a σ).2 b = σ b
    ∧ (unnormalize_features_ref norms shifts maxes um a rms ird zmp znp σ).2 a
        = unnormalize_array norms shifts maxes um ird zmp znp (σ a)
    ∧ (unnormalize_features_ref norms shifts maxes um a rms ird zmp znp σ).2 b = σ b := by
  refine ⟨rfl, ?_, ?_, ?_, ?_⟩
  · simp [normalize_features_ref]
  · simp [normalize_features_ref, hab]
  · simp [unnormalize_features_ref]
  · simp [unnormalize_features_ref, hab]

/-- C10 witness: the in-place mutation theorem at a concrete two-object store
(`rawEx1` at both addresses, mutating address 0, observing address 1). -/
theorem normalization_mutates_in_place_witness :
    ((1:ℕ) ≠ 0)
    ∧ ((normalize_features_ref defNorms defShifts 0 (fun _ => rawEx1)).1.1 = 0
      ∧ (normalize_features_ref defNorms defShifts 0 (fun _ => rawEx1)).2 0
          = (normalize_features defNorms defShifts ((fun _ => rawEx1) 0)).1
      ∧ (normalize_features_ref defNorms defShifts 0 (fun _ => rawEx1)).2 1
          = (fun _ : ℕ => rawEx1) 1
      ∧ (unnormalize_features_ref defNorms defShifts [1, 1, 1, 1] true 0 true false true true
          (fun _ => rawEx1)).2 0
          = unnormalize_array defNorms defShifts [1, 1, 1, 1] true false true true
              ((fun _ : ℕ => rawEx1) 0)
      ∧ (unnormalize_features_ref defNorms defShifts [1, 1, 1, 1] true 0 true false true true
          (fun _ => rawEx1)).2 1 = (fun _ : ℕ => rawEx1) 1) :=
  ⟨by decide,
   normalization_mutates_in_place defNorms defShifts [1, 1, 1, 1] true true false true true
     0 1 (fun _ => rawEx1) (by decide)⟩
